import Mathlib

/-!
Shallow embedding of the FieldOps service-request backend
(`users/models.py`, `service_requests/{models,serializers,permissions,views}.py`,
`tasks/{models,serializers,permissions,views}.py`).

Django querysets become Lean lists, HTTP error responses become an
`ApiError` sum, and each view action becomes a pure function
`State → ... → Except ApiError State`.  Field truthiness follows Python:
a `TextField` is truthy iff non-empty, a nullable `FileField` is truthy
iff a file is present, an integer foreign-key id is truthy iff non-zero.
-/

namespace FieldOps

/-- Roles of `users.models.User.ROLE_CHOICES`. -/
inductive Role
| customer
| field_worker
| admin
deriving DecidableEq, Repr

/-- `users.models.User`: the fields the lifecycle engine reads. -/
structure User where
  id : Nat
  role : Role
  is_approved : Bool
deriving DecidableEq, Repr

/-- Property `User.is_admin`. -/
def User.is_admin (u : User) : Bool := u.role == Role.admin

/-- Property `User.is_field_worker`. -/
def User.is_field_worker (u : User) : Bool := u.role == Role.field_worker

/-- Property `User.is_customer`. -/
def User.is_customer (u : User) : Bool := u.role == Role.customer

/-- `service_requests.models.ServiceRequest.Status`. -/
inductive SRStatus
| open_
| in_progress
| completed
| cancelled
deriving DecidableEq, Repr

/-- `service_requests.models.ServiceRequest.Urgency`. -/
inductive Urgency
| low
| medium
| high
deriving DecidableEq, Repr

/-- `tasks.models.Task.Status`. -/
inductive TaskStatus
| assigned
| in_progress
| completed
deriving DecidableEq, Repr

/-- `service_requests.models.ServiceRequest`. -/
structure ServiceRequest where
  id : Nat
  customer_id : Nat
  assigned_field_worker : Option Nat
  description : String
  location : String
  urgency : Urgency
  status : SRStatus
  rating : Option Nat
deriving DecidableEq, Repr

/-- `tasks.models.Task`.  `proof_upload` is the stored file reference
(`none` when no file has been uploaded). -/
structure Task where
  id : Nat
  service_request : Nat
  assigned_to : Option Nat
  status : TaskStatus
  notes : String
  proof_upload : Option String
deriving DecidableEq, Repr

/-- The persistent stores: user table, service-request table, task table,
plus the task-id sequence used on insert. -/
structure State where
  users : List User
  requests : List ServiceRequest
  tasks : List Task
  next_task_id : Nat
deriving DecidableEq, Repr

/-- Caller-visible failures: DRF 404, 403 and 400 responses. -/
inductive ApiError
| NotFound
| PermissionDenied (detail : String)
| ValidationError (detail : String)
deriving DecidableEq, Repr

/-- `User.objects.get(id=uid)` as a partial lookup. -/
def State.getUser (s : State) (uid : Nat) : Option User :=
  s.users.find? (fun u => u.id == uid)

/-- Replace the request with the matching id (`instance.save()`). -/
def update_sr (l : List ServiceRequest) (r : ServiceRequest) : List ServiceRequest :=
  l.map (fun x => if x.id == r.id then r else x)

/-- Replace the task with the matching id (`instance.save()`). -/
def update_task (l : List Task) (t : Task) : List Task :=
  l.map (fun x => if x.id == t.id then t else x)

/-- `ServiceRequestViewSet.get_queryset`: admins and field workers see all
requests, customers only their own. -/
def sr_get_queryset (s : State) (u : User) : List ServiceRequest :=
  if u.is_admin then s.requests
  else if u.is_field_worker then s.requests
  else s.requests.filter (fun r => r.customer_id == u.id)

/-- `TaskViewSet.get_queryset`: admins see all, field workers their own
tasks, customers the tasks of their service requests. -/
def task_get_queryset (s : State) (u : User) : List Task :=
  if u.is_admin then s.tasks
  else if u.is_field_worker then s.tasks.filter (fun t => t.assigned_to == some u.id)
  else s.tasks.filter (fun t =>
    match s.requests.find? (fun r => r.id == t.service_request) with
    | some r => r.customer_id == u.id
    | none => false)

/-- `service_requests.permissions.IsOwnerOrAdmin.has_object_permission`
for an authenticated caller. -/
def IsOwnerOrAdmin (u : User) (r : ServiceRequest) : Bool :=
  if u.is_admin then true else r.customer_id == u.id

/-- `tasks.permissions.IsAdminOrAssigneeOrReadOnly.has_object_permission`
for an authenticated caller; `method_is_safe` is `request.method in
SAFE_METHODS`. -/
def IsAdminOrAssigneeOrReadOnly (u : User) (method_is_safe : Bool) (t : Task) : Bool :=
  if u.is_admin then true
  else if method_is_safe then true
  else t.assigned_to == some u.id

/-- `self.get_object()` on `ServiceRequestViewSet`: queryset lookup (404 on
miss) followed by the object-permission check. -/
def sr_get_object (s : State) (u : User) (rid : Nat) : Except ApiError ServiceRequest :=
  match (sr_get_queryset s u).find? (fun r => r.id == rid) with
  | none => Except.error ApiError.NotFound
  | some r =>
    if IsOwnerOrAdmin u r then Except.ok r
    else Except.error (ApiError.PermissionDenied "You do not have permission to perform this action.")

/-- `self.get_object()` on `TaskViewSet`. -/
def task_get_object (s : State) (u : User) (tid : Nat) (method_is_safe : Bool) : Except ApiError Task :=
  match (task_get_queryset s u).find? (fun t => t.id == tid) with
  | none => Except.error ApiError.NotFound
  | some t =>
    if IsAdminOrAssigneeOrReadOnly u method_is_safe t then Except.ok t
    else Except.error (ApiError.PermissionDenied "You do not have permission to perform this action.")

/-- Rendering of a `TaskStatus` value inside error messages. -/
def TaskStatus.str : TaskStatus → String
| TaskStatus.assigned => "assigned"
| TaskStatus.in_progress => "in_progress"
| TaskStatus.completed => "completed"

/-- The `valid_transitions` table of `TaskStatusSerializer.validate_status`. -/
def valid_transitions : TaskStatus → List TaskStatus
| TaskStatus.assigned => [TaskStatus.in_progress]
| TaskStatus.in_progress => [TaskStatus.completed]
| TaskStatus.completed => []

/-- Python `repr` of each `valid_transitions` entry, as interpolated into
the serializer's error message. -/
def valid_transitions_repr : TaskStatus → String
| TaskStatus.assigned => "['in_progress']"
| TaskStatus.in_progress => "['completed']"
| TaskStatus.completed => "[]"

/-- The f-string of `TaskStatusSerializer.validate_status`'s error branch. -/
def transition_error_msg (current_status value : TaskStatus) : String :=
  "Cannot transition from " ++ current_status.str ++ " to " ++ value.str ++
  ". Valid transitions: " ++ valid_transitions_repr current_status

/-- `TaskStatusSerializer.validate_status` with a bound instance. -/
def validate_status (current_status value : TaskStatus) : Except ApiError TaskStatus :=
  if value ∈ valid_transitions current_status then Except.ok value
  else if value = current_status then Except.ok value
  else Except.error (ApiError.ValidationError (transition_error_msg current_status value))

/-- The direct-completion rejection message of `TaskViewSet.set_status`. -/
def proof_required_msg : String :=
  "Field workers cannot mark tasks as completed directly. Please upload proof of completion instead."

/-- The request-completion sync block shared by `set_status` and
`upload_proof`: if the parent request is not yet completed, mark it so. -/
def cascade_sr_completion (s : State) (sr_id : Nat) : State :=
  match s.requests.find? (fun r => r.id == sr_id) with
  | some sr =>
    if sr.status ≠ SRStatus.completed then
      { s with requests := update_sr s.requests { sr with status := SRStatus.completed } }
    else s
  | none => s

/-- `TaskViewSet.set_status`: object lookup and permission, serializer
transition validation, the redundant assignee check, the non-admin
direct-completion rejection, then save and completion sync. -/
def set_status (s : State) (u : User) (tid : Nat) (new_status : TaskStatus) : Except ApiError State :=
  match task_get_object s u tid false with
  | Except.error e => Except.error e
  | Except.ok task =>
    match validate_status task.status new_status with
    | Except.error e => Except.error e
    | Except.ok validated =>
      if u.is_admin = false ∧ task.assigned_to ≠ some u.id then
        Except.error (ApiError.PermissionDenied "Not allowed")
      else if u.is_admin = false ∧ validated = TaskStatus.completed then
        Except.error (ApiError.ValidationError proof_required_msg)
      else
        let old_status := task.status
        let task1 := { task with status := validated }
        let s1 := { s with tasks := update_task s.tasks task1 }
        if task1.status = TaskStatus.completed ∧ old_status ≠ TaskStatus.completed then
          Except.ok (cascade_sr_completion s1 task1.service_request)
        else
          Except.ok s1

/-- The `proof_upload` field after the partial serializer save: the
supplied file when the key is present, the stored file otherwise. -/
def merged_proof_upload (task : Task) (pf : Option String) : Option String :=
  match pf with
  | some f => some f
  | none => task.proof_upload

/-- The `notes` field after the partial serializer save: the supplied
text when the key is present, the stored text otherwise. -/
def merged_notes (task : Task) (nts : Option String) : String :=
  match nts with
  | some n => n
  | none => task.notes

/-- `TaskViewSet.upload_proof`.  `pf` and `nts` are the optional
`proof_upload` / `notes` parts of the multipart payload (`none` means the
key was absent; the serializer save is partial).  The auto-completion
condition reads the task fields after the save, exactly as the view's
`task.proof_upload or task.notes` does. -/
def upload_proof (s : State) (u : User) (tid : Nat) (pf nts : Option String) : Except ApiError State :=
  match task_get_object s u tid false with
  | Except.error e => Except.error e
  | Except.ok task =>
    if u.is_admin = false ∧ task.assigned_to ≠ some u.id then
      Except.error (ApiError.PermissionDenied "Not allowed")
    else
      let task1 := { task with
        proof_upload := merged_proof_upload task pf,
        notes := merged_notes task nts }
      let s1 := { s with tasks := update_task s.tasks task1 }
      if u.is_admin = false ∧ task1.status ≠ TaskStatus.completed ∧
          (task1.proof_upload.isSome ∨ task1.notes ≠ "") then
        let task2 := { task1 with status := TaskStatus.completed }
        Except.ok (cascade_sr_completion
          { s1 with tasks := update_task s1.tasks task2 } task2.service_request)
      else
        Except.ok s1

/-- `ServiceRequestAssignmentSerializer.validate_assigned_field_worker`. -/
def validate_assigned_field_worker (s : State) (value : Option Nat) : Except ApiError (Option Nat) :=
  match value with
  | none => Except.ok none
  | some wid =>
    match s.getUser wid with
    | none => Except.error (ApiError.ValidationError "User does not exist.")
    | some user =>
      if user.is_field_worker = false then
        Except.error (ApiError.ValidationError "User must be a field worker.")
      else if user.is_approved = false then
        Except.error (ApiError.ValidationError "Field worker must be approved.")
      else Except.ok (some wid)

/-- `Task.objects.get_or_create(service_request=..., assigned_to=...,
defaults=dict(status=assigned))` inside `ServiceRequestViewSet.assign`. -/
def get_or_create_task (s : State) (sr_id wid : Nat) : State :=
  match s.tasks.find? (fun t => t.service_request == sr_id && t.assigned_to == some wid) with
  | some _ => s
  | none =>
    { s with
      tasks := s.tasks ++ [{ id := s.next_task_id, service_request := sr_id,
                             assigned_to := some wid, status := TaskStatus.assigned,
                             notes := "", proof_upload := none }],
      next_task_id := s.next_task_id + 1 }

/-- `ServiceRequestViewSet.assign`.  The payload field is
`Option (Option Nat)`: `none` when `assigned_field_worker` is absent from
the request body, `some none` for an explicit null, `some (some wid)` for
an id.  An absent key is never validated and `validated_data.get` yields
`None` for it, merging the two null paths; the view then branches on the
Python truthiness of the id (so id 0 would also take the unassign path). -/
def assign (s : State) (u : User) (rid : Nat) (afw_field : Option (Option Nat)) : Except ApiError State :=
  if u.is_admin = false then
    Except.error (ApiError.PermissionDenied "Only admins can assign service requests.")
  else
    match sr_get_object s u rid with
    | Except.error e => Except.error e
    | Except.ok sr =>
      match (match afw_field with
             | none => Except.ok none
             | some v => validate_assigned_field_worker s v) with
      | Except.error e => Except.error e
      | Except.ok validated =>
        match validated with
        | some wid =>
          if wid = 0 then
            Except.ok { s with requests := update_sr s.requests { sr with assigned_field_worker := none } }
          else
            let sr1 := { sr with assigned_field_worker := some wid }
            let s1 := { s with requests := update_sr s.requests sr1 }
            let s2 := get_or_create_task s1 sr.id wid
            if sr1.status = SRStatus.open_ then
              Except.ok { s2 with requests := update_sr s2.requests { sr1 with status := SRStatus.in_progress } }
            else
              Except.ok s2
        | none =>
          Except.ok { s with requests := update_sr s.requests { sr with assigned_field_worker := none } }

/-- `ServiceRequestRatingSerializer.validate_rating` for a supplied
integer value (the model field is a `PositiveSmallIntegerField`, so the
value is a natural number). -/
def validate_rating (value : Nat) : Except ApiError Nat :=
  if 1 ≤ value ∧ value ≤ 5 then Except.ok value
  else Except.error (ApiError.ValidationError "Rating must be between 1 and 5.")

/-- `ServiceRequestViewSet.rate`: object lookup, the owner-customer
check, the completed-status gate, then rating validation and save. -/
def rate (s : State) (u : User) (rid : Nat) (value : Nat) : Except ApiError State :=
  match sr_get_object s u rid with
  | Except.error e => Except.error e
  | Except.ok sr =>
    if ¬ (u.is_customer = true ∧ sr.customer_id = u.id) then
      Except.error (ApiError.PermissionDenied "Not allowed")
    else if sr.status ≠ SRStatus.completed then
      Except.error (ApiError.ValidationError "Rating allowed only when status is completed.")
    else
      match validate_rating value with
      | Except.error e => Except.error e
      | Except.ok v =>
        Except.ok { s with requests := update_sr s.requests { sr with rating := some v } }

/-- `ServiceRequestViewSet.perform_create` with
`ServiceRequestCreateUpdateSerializer`: only customers may create; the
new row takes the model defaults `status=open`, `rating=null`,
`assigned_field_worker=null`. -/
def sr_create (s : State) (u : User) (new_id : Nat) (desc loc : String) (urg : Urgency) : Except ApiError State :=
  if u.is_customer = false then
    Except.error (ApiError.PermissionDenied "Only customers can create service requests.")
  else
    Except.ok { s with requests := s.requests ++
      [{ id := new_id, customer_id := u.id, assigned_field_worker := none,
         description := desc, location := loc, urgency := urg,
         status := SRStatus.open_, rating := none }] }

/-- `ServiceRequestViewSet.update` / `partial_update`: the serializer
exposes only `description`, `location` and `urgency`. -/
def sr_update (s : State) (u : User) (rid : Nat) (desc loc : String) (urg : Urgency) : Except ApiError State :=
  match sr_get_object s u rid with
  | Except.error e => Except.error e
  | Except.ok sr =>
    let sr1 := { sr with description := desc, location := loc, urgency := urg }
    Except.ok { s with requests := update_sr s.requests sr1 }

/-- `ServiceRequestViewSet.destroy`; deleting a request cascades to its
tasks (`Task.service_request` is `on_delete=CASCADE`). -/
def sr_destroy (s : State) (u : User) (rid : Nat) : Except ApiError State :=
  match sr_get_object s u rid with
  | Except.error e => Except.error e
  | Except.ok sr =>
    Except.ok { s with
      requests := s.requests.filter (fun r => r.id ≠ sr.id),
      tasks := s.tasks.filter (fun t => t.service_request ≠ sr.id) }

/-- `TaskViewSet.destroy` (`DestroyModelMixin`): object lookup with the
non-safe-method permission check, then deletion. -/
def task_destroy (s : State) (u : User) (tid : Nat) : Except ApiError State :=
  match task_get_object s u tid false with
  | Except.error e => Except.error e
  | Except.ok t =>
    Except.ok { s with tasks := s.tasks.filter (fun x => x.id ≠ t.id) }

/-- `ServiceRequestViewSet.retrieve`: `get_object` applies the same
object-level permission to GET. -/
def sr_retrieve (s : State) (u : User) (rid : Nat) : Except ApiError ServiceRequest :=
  sr_get_object s u rid

/-- `ServiceRequestViewSet.list`: the role-filtered queryset. -/
def sr_list (s : State) (u : User) : List ServiceRequest :=
  sr_get_queryset s u

/-! ## Concrete fixtures used by witnesses and counterexamples -/

/-- A customer identity. -/
def customer1 : User := ⟨1, Role.customer, true⟩

/-- An approved field worker. -/
def worker2 : User := ⟨2, Role.field_worker, true⟩

/-- An unapproved field worker. -/
def worker3 : User := ⟨3, Role.field_worker, false⟩

/-- An admin identity. -/
def admin9 : User := ⟨9, Role.admin, true⟩

/-- An open request owned by `customer1`. -/
def request10 : ServiceRequest := ⟨10, 1, none, "fix pipe", "main st", Urgency.medium, SRStatus.open_, none⟩

/-- A task on `request10` assigned to `worker2`. -/
def task5 : Task := ⟨5, 10, some 2, TaskStatus.assigned, "", none⟩

/-- A base store holding the fixtures above. -/
def baseState : State := ⟨[customer1, worker2, worker3, admin9], [request10], [task5], 6⟩

/-! ## Helper lemmas -/

/-- `validate_status` accepts exactly assigned to in_progress, in_progress
to completed, and the identity transition. -/
theorem validate_status_ok_iff (cur v : TaskStatus) :
    (validate_status cur v).isOk = true ↔
      ((cur = TaskStatus.assigned ∧ v = TaskStatus.in_progress) ∨
       (cur = TaskStatus.in_progress ∧ v = TaskStatus.completed) ∨ v = cur) := by
  cases cur <;> cases v <;> decide

/-- A successful `validate_status` returns the requested value. -/
theorem validate_status_ok_val {cur v t : TaskStatus}
    (h : validate_status cur v = Except.ok t) : t = v := by
  unfold validate_status at h
  split at h
  · injection h with h; exact h.symm
  · split at h
    · injection h with h; exact h.symm
    · exact absurd h (by simp)

/-- Objects returned by `task_get_object` are rows of the task table,
carry the requested id, and pass the object permission. -/
theorem task_get_object_ok {s : State} {u : User} {tid : Nat} {safe : Bool} {t : Task}
    (h : task_get_object s u tid safe = Except.ok t) :
    t ∈ s.tasks ∧ t.id = tid ∧ IsAdminOrAssigneeOrReadOnly u safe t = true := by
  unfold task_get_object at h
  split at h
  · exact absurd h (by simp)
  · rename_i t0 heq
    split at h
    · rename_i hperm
      injection h with h
      subst h
      have hmem := List.mem_of_find?_eq_some heq
      have hid := List.find?_some heq
      refine ⟨?_, by simpa using hid, hperm⟩
      unfold task_get_queryset at hmem
      split at hmem
      · exact hmem
      · split at hmem
        · exact (List.mem_filter.mp hmem).1
        · exact (List.mem_filter.mp hmem).1
    · exact absurd h (by simp)

/-- Objects returned by `sr_get_object` are rows of the request table,
carry the requested id, and pass the object permission. -/
theorem sr_get_object_ok {s : State} {u : User} {rid : Nat} {r : ServiceRequest}
    (h : sr_get_object s u rid = Except.ok r) :
    r ∈ s.requests ∧ r.id = rid ∧ IsOwnerOrAdmin u r = true := by
  unfold sr_get_object at h
  split at h
  · exact absurd h (by simp)
  · rename_i r0 heq
    split at h
    · rename_i hperm
      injection h with h
      subst h
      have hmem := List.mem_of_find?_eq_some heq
      have hid := List.find?_some heq
      refine ⟨?_, by simpa using hid, hperm⟩
      unfold sr_get_queryset at hmem
      split at hmem
      · exact hmem
      · split at hmem
        · exact hmem
        · exact (List.mem_filter.mp hmem).1
    · exact absurd h (by simp)

/-- Membership in an updated task table comes from the new row or an old
row. -/
theorem mem_update_task_cases {l : List Task} {t x : Task}
    (hx : x ∈ update_task l t) : x = t ∨ x ∈ l := by
  unfold update_task at hx
  obtain ⟨a, ha, hax⟩ := List.mem_map.mp hx
  by_cases h : (a.id == t.id) = true
  · left
    rw [← hax]
    simp only [h, if_true]
  · right
    rw [← hax]
    simp only [h, Bool.false_eq_true, if_false]
    exact ha

/-- Membership in an updated request table comes from the new row or an
old row. -/
theorem mem_update_sr_cases {l : List ServiceRequest} {r x : ServiceRequest}
    (hx : x ∈ update_sr l r) : x = r ∨ x ∈ l := by
  unfold update_sr at hx
  obtain ⟨a, ha, hax⟩ := List.mem_map.mp hx
  by_cases h : (a.id == r.id) = true
  · left
    rw [← hax]
    simp only [h, if_true]
  · right
    rw [← hax]
    simp only [h, Bool.false_eq_true, if_false]
    exact ha

/-- Replacing a row whose id equals that of a present row keeps the
replacement present. -/
theorem mem_update_task_self {l : List Task} {t t' : Task}
    (ht : t ∈ l) (hid : t.id = t'.id) : t' ∈ update_task l t' := by
  unfold update_task
  exact List.mem_map.mpr ⟨t, ht, by simp [hid]⟩

/-- Replacing a row whose id equals that of a present row keeps the
replacement present. -/
theorem mem_update_sr_self {l : List ServiceRequest} {r r' : ServiceRequest}
    (hr : r ∈ l) (hid : r.id = r'.id) : r' ∈ update_sr l r' := by
  unfold update_sr
  exact List.mem_map.mpr ⟨r, hr, by simp [hid]⟩

/-! ## C2 -/

/-- C2: the task status serializer accepts exactly the transitions
assigned to in_progress, in_progress to completed, and same to same; every
other requested transition is rejected with a `ValidationError` whose
message names the attempted transition and the allowed set for the
current state; completed has no outgoing transition; and every successful
`set_status` call performs one of the accepted transitions, so reachable
status sequences follow assigned, in_progress, completed in order. -/
theorem C2_status_transition_machine :
    (∀ cur v : TaskStatus, (validate_status cur v).isOk = true ↔
       ((cur = TaskStatus.assigned ∧ v = TaskStatus.in_progress) ∨
        (cur = TaskStatus.in_progress ∧ v = TaskStatus.completed) ∨ v = cur)) ∧
    (∀ cur v : TaskStatus, (validate_status cur v).isOk = false →
       validate_status cur v =
         Except.error (ApiError.ValidationError (transition_error_msg cur v))) ∧
    (∀ v : TaskStatus, (validate_status TaskStatus.completed v).isOk = true →
       v = TaskStatus.completed) ∧
    (∀ cur v : TaskStatus, (validate_status cur v).isOk = true →
       cur ≠ TaskStatus.assigned → v ≠ TaskStatus.assigned) ∧
    (∀ (s : State) (u : User) (tid : Nat) (v : TaskStatus) (s' : State) (t : Task),
       set_status s u tid v = Except.ok s' →
       task_get_object s u tid false = Except.ok t →
       ((t.status = TaskStatus.assigned ∧ v = TaskStatus.in_progress) ∨
        (t.status = TaskStatus.in_progress ∧ v = TaskStatus.completed) ∨ v = t.status)) := by
  refine ⟨validate_status_ok_iff, ?_, ?_, ?_, ?_⟩
  · intro cur v h
    cases cur <;> cases v <;> first
      | rfl
      | exact absurd h (by decide)
  · intro v h
    cases v <;> first
      | rfl
      | exact absurd h (by decide)
  · intro cur v h hne
    cases cur <;> cases v <;> first
      | exact absurd h (by decide)
      | exact absurd rfl hne
      | decide
  · intro s u tid v s' t hss hget
    simp only [set_status, hget] at hss
    cases hval : validate_status t.status v with
    | error e => rw [hval] at hss; simp at hss
    | ok validated =>
      exact (validate_status_ok_iff t.status v).mp (by rw [hval]; rfl)

/-- C2 witness: a concrete rejected transition (completed to in_progress)
produces the transition-naming error. -/
theorem C2_witness :
    validate_status TaskStatus.completed TaskStatus.in_progress =
      Except.error (ApiError.ValidationError
        (transition_error_msg TaskStatus.completed TaskStatus.in_progress)) :=
  C2_status_transition_machine.2.1 TaskStatus.completed TaskStatus.in_progress (by decide)

/-! ## C3 -/

/-- C3 counterexample: a field worker requesting completed on their own
still-assigned task is rejected, but with the transition-validation
message, not one naming the proof-upload requirement. -/
theorem C3_counterexample :
    set_status baseState worker2 5 TaskStatus.completed =
      Except.error (ApiError.ValidationError
        "Cannot transition from assigned to completed. Valid transitions: ['in_progress']") ∧
    "Cannot transition from assigned to completed. Valid transitions: ['in_progress']" ≠
      proof_required_msg := by
  constructor
  · rfl
  · decide

/-- C3 (amended): a non-admin assignee requesting completed always fails
with a `ValidationError` and the state is unchanged; the error names the
proof-upload requirement exactly when the transition machine accepts
completed from the current status (in_progress or completed), while from
assigned it is the transition-naming error raised first by the
serializer. -/
theorem C3_nonadmin_direct_completion_blocked
    (s : State) (u : User) (tid : Nat) (t : Task)
    (hget : task_get_object s u tid false = Except.ok t)
    (hadmin : u.is_admin = false)
    (hass : t.assigned_to = some u.id) :
    (t.status = TaskStatus.assigned →
       set_status s u tid TaskStatus.completed =
         Except.error (ApiError.ValidationError
           (transition_error_msg TaskStatus.assigned TaskStatus.completed))) ∧
    (t.status ≠ TaskStatus.assigned →
       set_status s u tid TaskStatus.completed =
         Except.error (ApiError.ValidationError proof_required_msg)) := by
  constructor
  · intro hst
    simp only [set_status, hget, hst]
    rfl
  · intro hst
    simp only [set_status, hget]
    cases hts : t.status with
    | assigned => exact absurd hts hst
    | in_progress =>
      simp [validate_status, valid_transitions, hadmin, hass]
    | completed =>
      simp [validate_status, valid_transitions, hadmin, hass]

/-- C3 witness: on an in_progress task of the base store, the rejection
carries the proof-upload message and on an assigned one the transition
message. -/
theorem C3_witness :
    set_status { baseState with tasks := [⟨5, 10, some 2, TaskStatus.in_progress, "", none⟩] }
        worker2 5 TaskStatus.completed =
      Except.error (ApiError.ValidationError proof_required_msg) :=
  (C3_nonadmin_direct_completion_blocked
      { baseState with tasks := [⟨5, 10, some 2, TaskStatus.in_progress, "", none⟩] }
      worker2 5 ⟨5, 10, some 2, TaskStatus.in_progress, "", none⟩
      (by rfl) (by rfl) (by rfl)).2 (by decide)

/-! ## C1 -/

/-- C1 counterexample: a non-admin assignee submits proof with neither
file nor notes on an assigned task that already stores non-empty notes;
the claim says the status is left unchanged, but the view re-reads the
saved fields and auto-completes the task and its parent request. -/
theorem C1_counterexample :
    upload_proof { baseState with tasks := [⟨5, 10, some 2, TaskStatus.assigned, "old", none⟩] }
        worker2 5 none none =
      Except.ok { baseState with
        requests := [⟨10, 1, none, "fix pipe", "main st", Urgency.medium, SRStatus.completed, none⟩],
        tasks := [⟨5, 10, some 2, TaskStatus.completed, "old", none⟩] } ∧
    TaskStatus.completed ≠ TaskStatus.assigned := by
  constructor
  · rfl
  · decide

/-- The completion sync never touches the task table. -/
theorem cascade_sr_completion_tasks (s : State) (sr_id : Nat) :
    (cascade_sr_completion s sr_id).tasks = s.tasks := by
  unfold cascade_sr_completion
  split
  · split <;> rfl
  · rfl

/-- After the completion sync, a request found under the synced id is
recorded as completed. -/
theorem cascade_requests_completed (s : State) (sr_id : Nat) (sr : ServiceRequest)
    (hsr : s.requests.find? (fun r => r.id == sr_id) = some sr) :
    ∃ r' ∈ (cascade_sr_completion s sr_id).requests,
      r'.id = sr.id ∧ r'.status = SRStatus.completed := by
  have hsrmem : sr ∈ s.requests := List.mem_of_find?_eq_some hsr
  unfold cascade_sr_completion
  simp only [hsr]
  split
  · exact ⟨_, mem_update_sr_self hsrmem rfl, rfl, rfl⟩
  · rename_i hcomp
    exact ⟨sr, hsrmem, rfl, not_not.mp (by simpa using hcomp)⟩

/-- C1 (amended): for a non-admin assignee call, `upload_proof` saves the
supplied fields and then auto-completes exactly when the saved task is
not yet completed and its post-save `proof_upload` or `notes` field is
non-empty — whether that content came from this call or was already
stored; in that case the parent request is completed as well, otherwise
the status and the request table are unchanged. -/
theorem C1_submit_proof_autocompletion
    (s : State) (u : User) (tid : Nat) (pf nts : Option String)
    (t : Task) (sr : ServiceRequest) (s' : State)
    (hget : task_get_object s u tid false = Except.ok t)
    (hadmin : u.is_admin = false)
    (hass : t.assigned_to = some u.id)
    (hsr : s.requests.find? (fun r => r.id == t.service_request) = some sr)
    (hok : upload_proof s u tid pf nts = Except.ok s') :
    (t.status ≠ TaskStatus.completed ∧
       ((merged_proof_upload t pf).isSome ∨ merged_notes t nts ≠ "") →
       (∃ t' ∈ s'.tasks, t'.id = t.id ∧ t'.status = TaskStatus.completed ∧
          t'.proof_upload = merged_proof_upload t pf ∧ t'.notes = merged_notes t nts) ∧
       (∃ r' ∈ s'.requests, r'.id = sr.id ∧ r'.status = SRStatus.completed)) ∧
    (¬(t.status ≠ TaskStatus.completed ∧
       ((merged_proof_upload t pf).isSome ∨ merged_notes t nts ≠ "")) →
       (∃ t' ∈ s'.tasks, t'.id = t.id ∧ t'.status = t.status ∧
          t'.proof_upload = merged_proof_upload t pf ∧ t'.notes = merged_notes t nts) ∧
       s'.requests = s.requests) := by
  have hmem : t ∈ s.tasks := (task_get_object_ok hget).1
  simp only [upload_proof, hget] at hok
  split at hok
  · rename_i hcond1
    exact absurd hass hcond1.2
  · split at hok
    · rename_i hcond2
      injection hok with hok
      subst hok
      constructor
      · intro _
        constructor
        · refine ⟨{ t with status := TaskStatus.completed, notes := merged_notes t nts, proof_upload := merged_proof_upload t pf }, ?_, rfl, rfl, rfl, rfl⟩
          rw [cascade_sr_completion_tasks]
          exact mem_update_task_self (mem_update_task_self hmem rfl) rfl
        · exact cascade_requests_completed _ _ sr (by exact hsr)
      · intro hnc
        exact absurd ⟨hcond2.2.1, hcond2.2.2⟩ hnc
    · rename_i hcond2
      injection hok with hok
      subst hok
      constructor
      · intro hcc
        exact absurd ⟨hadmin, hcc.1, hcc.2⟩ hcond2
      · intro _
        refine ⟨⟨{ t with notes := merged_notes t nts, proof_upload := merged_proof_upload t pf }, ?_, rfl, rfl, rfl, rfl⟩, rfl⟩
        exact mem_update_task_self hmem rfl

/-- C1 witness: the field worker submits notes on the assigned base-store
task; the task and the open parent request both become completed. -/
theorem C1_witness :
    (upload_proof baseState worker2 5 none (some "done")).isOk = true ∧
    (∀ s', upload_proof baseState worker2 5 none (some "done") = Except.ok s' →
       (∃ t' ∈ s'.tasks, t'.id = 5 ∧ t'.status = TaskStatus.completed ∧
          t'.proof_upload = none ∧ t'.notes = "done") ∧
       (∃ r' ∈ s'.requests, r'.id = 10 ∧ r'.status = SRStatus.completed)) := by
  constructor
  · rfl
  · intro s' hok
    have h := C1_submit_proof_autocompletion baseState worker2 5 none (some "done")
      task5 request10 s' (by rfl) (by rfl) (by rfl) (by rfl) hok
    exact h.1 (by decide)

/-! ## Assignment-engine helper lemmas -/

/-- Replacing the found row by one with the same id makes the replacement
the row found. -/
theorem find?_update_sr {l : List ServiceRequest} {rid : Nat} {sr sr' : ServiceRequest}
    (h : l.find? (fun r => r.id == rid) = some sr) (hid : sr'.id = sr.id) :
    (update_sr l sr').find? (fun r => r.id == rid) = some sr' := by
  have hsrid : sr.id = rid := by
    have hp := List.find?_some h
    simpa using hp
  induction l with
  | nil => simp [List.find?] at h
  | cons a l ih =>
    unfold update_sr at ih ⊢
    rw [List.map_cons]
    simp only [List.find?] at h
    by_cases ha : (a.id == rid) = true
    · rw [ha] at h
      injection h with h
      subst h
      have hrep : (a.id == sr'.id) = true := by simp [hid]
      rw [if_pos hrep]
      simp only [List.find?]
      have hgoal : (sr'.id == rid) = true := by
        rw [hid, hsrid]
        simp
      rw [hgoal]
    · have ha' : (a.id == rid) = false := by
        rwa [Bool.not_eq_true] at ha
      rw [ha'] at h
      have hne : ¬((a.id == sr'.id) = true) := by
        have h1 : sr'.id = rid := by rw [hid, hsrid]
        rw [h1]
        simp [ha']
      rw [if_neg hne]
      simp only [List.find?]
      rw [ha']
      exact ih h

/-- For an admin caller a successful request lookup is a plain `find?` on
the request table. -/
theorem sr_get_object_admin_find {s : State} {u : User} {rid : Nat} {sr : ServiceRequest}
    (hadmin : u.is_admin = true) (h : sr_get_object s u rid = Except.ok sr) :
    s.requests.find? (fun r => r.id == rid) = some sr := by
  unfold sr_get_object sr_get_queryset at h
  rw [hadmin] at h
  simp only [if_true] at h
  split at h
  · exact absurd h (by simp)
  · rename_i r0 heq
    split at h
    · injection h with h
      subst h
      exact heq
    · exact absurd h (by simp)

/-- The get-or-create step never touches the request table. -/
theorem get_or_create_task_requests (s : State) (a b : Nat) :
    (get_or_create_task s a b).requests = s.requests := by
  unfold get_or_create_task
  split <;> rfl

/-- The get-or-create step never touches the user table. -/
theorem get_or_create_task_users (s : State) (a b : Nat) :
    (get_or_create_task s a b).users = s.users := by
  unfold get_or_create_task
  split <;> rfl

/-- The get-or-create step preserves every existing task row. -/
theorem get_or_create_task_mem {s : State} {a b : Nat} {t : Task} (ht : t ∈ s.tasks) :
    t ∈ (get_or_create_task s a b).tasks := by
  unfold get_or_create_task
  split
  · exact ht
  · exact List.mem_append_left _ ht

/-- After get-or-create, some task row for the pair exists: an old row or
a fresh one with status assigned. -/
theorem get_or_create_task_pair (s : State) (a b : Nat) :
    ∃ t ∈ (get_or_create_task s a b).tasks, t.service_request = a ∧ t.assigned_to = some b ∧
      (t ∈ s.tasks ∨ t.status = TaskStatus.assigned) := by
  unfold get_or_create_task
  split
  · rename_i t0 heq
    have hp := List.find?_some heq
    simp only [Bool.and_eq_true, beq_iff_eq] at hp
    exact ⟨t0, List.mem_of_find?_eq_some heq, hp.1, hp.2, Or.inl (List.mem_of_find?_eq_some heq)⟩
  · refine ⟨_, List.mem_append_right _ (List.mem_singleton_self _), rfl, rfl, Or.inr rfl⟩

/-- Get-or-create with no matching row appends exactly one fresh assigned
task. -/
theorem get_or_create_task_new {s : State} {a b : Nat}
    (hnone : s.tasks.find? (fun t => t.service_request == a && t.assigned_to == some b) = none) :
    (get_or_create_task s a b).tasks =
      s.tasks ++ [{ id := s.next_task_id, service_request := a, assigned_to := some b, status := TaskStatus.assigned, notes := "", proof_upload := none }] := by
  unfold get_or_create_task
  rw [hnone]

/-- Get-or-create with a matching row is the identity. -/
theorem get_or_create_task_existing {s : State} {a b : Nat}
    (h : (s.tasks.find? (fun t => t.service_request == a && t.assigned_to == some b)).isSome = true) :
    get_or_create_task s a b = s := by
  unfold get_or_create_task
  cases hf : s.tasks.find? (fun t => t.service_request == a && t.assigned_to == some b) with
  | none => rw [hf] at h; simp at h
  | some t0 => rfl

/-- The store after the foreign-key save and the get-or-create step of a
successful assignment (abbreviation of the corresponding subterm of
`assign`). -/
def assign_state_1 (s : State) (sr : ServiceRequest) (wid : Nat) : State :=
  get_or_create_task { s with requests := update_sr s.requests { sr with assigned_field_worker := some wid } } sr.id wid

/-- The store after a successful assignment that also advanced an open
request to in_progress (abbreviation of the corresponding subterm of
`assign`). -/
def assign_state_open (s : State) (sr : ServiceRequest) (wid : Nat) : State :=
  { assign_state_1 s sr wid with
    requests := update_sr (assign_state_1 s sr wid).requests
      { sr with assigned_field_worker := some wid, status := SRStatus.in_progress } }

/-- Unfolding of a successful admin assignment of a valid worker: set the
foreign key, get-or-create the task, then advance open to in_progress. -/
theorem assign_ok_eq (s : State) (u : User) (rid wid : Nat) (sr : ServiceRequest) (w : User)
    (hadmin : u.is_admin = true)
    (hsr : sr_get_object s u rid = Except.ok sr)
    (hw : s.getUser wid = some w)
    (hfw : w.is_field_worker = true)
    (happ : w.is_approved = true)
    (hwid : wid ≠ 0) :
    assign s u rid (some (some wid)) =
      (if sr.status = SRStatus.open_ then Except.ok (assign_state_open s sr wid)
       else Except.ok (assign_state_1 s sr wid)) := by
  by_cases hst : sr.status = SRStatus.open_
  · simp [assign, assign_state_1, assign_state_open, validate_assigned_field_worker,
      hadmin, hsr, hw, hfw, happ, hwid, hst]
  · simp [assign, assign_state_1, assign_state_open, validate_assigned_field_worker,
      hadmin, hsr, hw, hfw, happ, hwid, hst]

/-- The user table is untouched by a successful assignment. -/
theorem assign_state_1_users (s : State) (sr : ServiceRequest) (wid : Nat) :
    (assign_state_1 s sr wid).users = s.users := by
  unfold assign_state_1
  rw [get_or_create_task_users]

/-- The user table is untouched by a successful assignment. -/
theorem assign_state_open_users (s : State) (sr : ServiceRequest) (wid : Nat) :
    (assign_state_open s sr wid).users = s.users := by
  show (assign_state_1 s sr wid).users = s.users
  exact assign_state_1_users s sr wid

/-- Advancing the status touches only the request table. -/
theorem assign_state_open_tasks (s : State) (sr : ServiceRequest) (wid : Nat) :
    (assign_state_open s sr wid).tasks = (assign_state_1 s sr wid).tasks := rfl

/-- The request table after a successful open assignment: the foreign-key
save followed by the in_progress save. -/
theorem assign_state_open_requests (s : State) (sr : ServiceRequest) (wid : Nat) :
    (assign_state_open s sr wid).requests =
      update_sr (update_sr s.requests { sr with assigned_field_worker := some wid })
        { sr with assigned_field_worker := some wid, status := SRStatus.in_progress } := by
  show update_sr (assign_state_1 s sr wid).requests _ = _
  unfold assign_state_1
  rw [get_or_create_task_requests]

/-! ## C4 -/

/-- C4: a successful admin assignment of an existing, approved field
worker sets the foreign key, get-or-creates a Task for the
(request, worker) pair with initial status assigned, advances the request
status to in_progress exactly when it was open and leaves it unchanged
otherwise, never deletes an existing Task row, and appends exactly one
fresh assigned Task when the pair had none. -/
theorem C4_successful_assignment (s : State) (u : User) (rid wid : Nat) (sr : ServiceRequest) (w : User)
    (hadmin : u.is_admin = true)
    (hsr : sr_get_object s u rid = Except.ok sr)
    (hw : s.getUser wid = some w)
    (hfw : w.is_field_worker = true)
    (happ : w.is_approved = true)
    (hwid : wid ≠ 0) :
    ∃ s', assign s u rid (some (some wid)) = Except.ok s' ∧
      (∃ r' ∈ s'.requests, r'.id = sr.id ∧ r'.assigned_field_worker = some wid ∧
         r'.status = (if sr.status = SRStatus.open_ then SRStatus.in_progress else sr.status)) ∧
      (∀ t ∈ s.tasks, t ∈ s'.tasks) ∧
      (∃ t ∈ s'.tasks, t.service_request = sr.id ∧ t.assigned_to = some wid ∧
         (t ∈ s.tasks ∨ t.status = TaskStatus.assigned)) ∧
      (s.tasks.find? (fun t => t.service_request == sr.id && t.assigned_to == some wid) = none →
         s'.tasks = s.tasks ++ [{ id := s.next_task_id, service_request := sr.id, assigned_to := some wid, status := TaskStatus.assigned, notes := "", proof_upload := none }]) := by
  rw [assign_ok_eq s u rid wid sr w hadmin hsr hw hfw happ hwid]
  have hsrmem : sr ∈ s.requests := (sr_get_object_ok hsr).1
  by_cases hst : sr.status = SRStatus.open_
  · rw [if_pos hst]
    refine ⟨_, rfl, ?_, ?_, ?_, ?_⟩
    · refine ⟨{ sr with assigned_field_worker := some wid, status := SRStatus.in_progress }, ?_, rfl, rfl, by rw [if_pos hst]⟩
      rw [assign_state_open_requests]
      exact mem_update_sr_self (mem_update_sr_self hsrmem rfl) rfl
    · intro t ht
      exact get_or_create_task_mem ht
    · exact get_or_create_task_pair { s with requests := update_sr s.requests { sr with assigned_field_worker := some wid } } sr.id wid
    · intro hnone
      exact get_or_create_task_new hnone
  · rw [if_neg hst]
    refine ⟨_, rfl, ?_, ?_, ?_, ?_⟩
    · refine ⟨{ sr with assigned_field_worker := some wid }, ?_, rfl, rfl, by rw [if_neg hst]⟩
      unfold assign_state_1
      rw [get_or_create_task_requests]
      exact mem_update_sr_self hsrmem rfl
    · intro t ht
      exact get_or_create_task_mem ht
    · exact get_or_create_task_pair { s with requests := update_sr s.requests { sr with assigned_field_worker := some wid } } sr.id wid
    · intro hnone
      exact get_or_create_task_new hnone

/-- A fixture store with no task rows. -/
def baseStateNoTasks : State := { baseState with tasks := [] }

/-- C4 witness: the admin assigns approved `worker2` to the open
`request10` in a store without tasks. -/
theorem C4_witness :
    ∃ s', assign baseStateNoTasks admin9 10 (some (some 2)) = Except.ok s' ∧
      (∃ r' ∈ s'.requests, r'.id = request10.id ∧ r'.assigned_field_worker = some 2 ∧
         r'.status = (if request10.status = SRStatus.open_ then SRStatus.in_progress else request10.status)) ∧
      (∀ t ∈ baseStateNoTasks.tasks, t ∈ s'.tasks) ∧
      (∃ t ∈ s'.tasks, t.service_request = request10.id ∧ t.assigned_to = some 2 ∧
         (t ∈ baseStateNoTasks.tasks ∨ t.status = TaskStatus.assigned)) ∧
      (baseStateNoTasks.tasks.find? (fun t => t.service_request == request10.id && t.assigned_to == some 2) = none →
         s'.tasks = baseStateNoTasks.tasks ++ [{ id := baseStateNoTasks.next_task_id, service_request := request10.id, assigned_to := some 2, status := TaskStatus.assigned, notes := "", proof_upload := none }]) :=
  C4_successful_assignment baseStateNoTasks admin9 10 2 request10 worker2 rfl rfl rfl rfl rfl (by decide)

/-! ## C5 -/

/-- C5: assignment of a missing identity fails with ValidationError
"User does not exist.", of a non-field-worker with "User must be a field
worker.", of an unapproved field worker with "Field worker must be
approved."; the operation returns the error before any write, so the
request and task tables are untouched. -/
theorem C5_assignment_validation_failures (s : State) (u : User) (rid wid : Nat) (sr : ServiceRequest)
    (hadmin : u.is_admin = true)
    (hsr : sr_get_object s u rid = Except.ok sr) :
    (s.getUser wid = none →
       assign s u rid (some (some wid)) = Except.error (ApiError.ValidationError "User does not exist.")) ∧
    (∀ w : User, s.getUser wid = some w → w.is_field_worker = false →
       assign s u rid (some (some wid)) = Except.error (ApiError.ValidationError "User must be a field worker.")) ∧
    (∀ w : User, s.getUser wid = some w → w.is_field_worker = true → w.is_approved = false →
       assign s u rid (some (some wid)) = Except.error (ApiError.ValidationError "Field worker must be approved.")) := by
  refine ⟨?_, ?_, ?_⟩
  · intro hnone
    simp [assign, validate_assigned_field_worker, hadmin, hsr, hnone]
  · intro w hw hnfw
    simp [assign, validate_assigned_field_worker, hadmin, hsr, hw, hnfw]
  · intro w hw hfw hnapp
    simp [assign, validate_assigned_field_worker, hadmin, hsr, hw, hfw, hnapp]

/-- C5 witness: assigning the unknown id 7 on the base store fails with
the user-does-not-exist error. -/
theorem C5_witness :
    assign baseState admin9 10 (some (some 7)) =
      Except.error (ApiError.ValidationError "User does not exist.") :=
  (C5_assignment_validation_failures baseState admin9 10 7 request10 rfl rfl).1 rfl

/-! ## C10 -/

/-- C10: an assign payload that omits the assigned_field_worker key is
processed exactly like an explicit null: for every store, caller and
request the two calls are equal, and on an admin call with an existing
request they clear the foreign key, touch no task, and leave the status
unchanged. -/
theorem C10_omitted_field_worker_is_null (s : State) (u : User) (rid : Nat) :
    assign s u rid none = assign s u rid (some none) ∧
    (∀ sr : ServiceRequest, u.is_admin = true → sr_get_object s u rid = Except.ok sr →
       assign s u rid none =
         Except.ok { s with requests := update_sr s.requests { sr with assigned_field_worker := none } }) := by
  constructor
  · rfl
  · intro sr hadmin hsr
    simp [assign, validate_assigned_field_worker, hadmin, hsr]

/-- C10 witness: omitting the key on the base store clears the foreign
key of `request10` and equals the explicit-null call. -/
theorem C10_witness :
    assign baseState admin9 10 none = assign baseState admin9 10 (some none) ∧
    assign baseState admin9 10 none =
      Except.ok { baseState with requests := update_sr baseState.requests { request10 with assigned_field_worker := none } } :=
  ⟨(C10_omitted_field_worker_is_null baseState admin9 10).1,
   (C10_omitted_field_worker_is_null baseState admin9 10).2 request10 rfl rfl⟩

/-! ## C6 -/

/-- A successful assignment whose (request, worker) pair already has a
task row leaves the task table unchanged. -/
theorem assign_existing_pair_tasks (s : State) (u : User) (rid wid : Nat) (sr : ServiceRequest) (w : User)
    (hadmin : u.is_admin = true)
    (hsr : sr_get_object s u rid = Except.ok sr)
    (hw : s.getUser wid = some w)
    (hfw : w.is_field_worker = true)
    (happ : w.is_approved = true)
    (hwid : wid ≠ 0)
    (hsome : (s.tasks.find? (fun t => t.service_request == sr.id && t.assigned_to == some wid)).isSome = true) :
    ∃ s', assign s u rid (some (some wid)) = Except.ok s' ∧ s'.tasks = s.tasks := by
  rw [assign_ok_eq s u rid wid sr w hadmin hsr hw hfw happ hwid]
  by_cases hst : sr.status = SRStatus.open_
  · rw [if_pos hst]
    refine ⟨_, rfl, ?_⟩
    show (assign_state_1 s sr wid).tasks = s.tasks
    unfold assign_state_1
    rw [get_or_create_task_existing (by exact hsome)]
  · rw [if_neg hst]
    refine ⟨_, rfl, ?_⟩
    unfold assign_state_1
    rw [get_or_create_task_existing (by exact hsome)]

/-- C6: assigning the same approved worker twice in a row to an open
request whose pair has no task row creates the task once: the second call
adds no row, and the final store holds exactly one non-completed task for
the (request, worker) pair. -/
theorem C6_assignment_idempotent (s : State) (u : User) (rid wid : Nat) (sr : ServiceRequest) (w : User)
    (hadmin : u.is_admin = true)
    (hsr : sr_get_object s u rid = Except.ok sr)
    (hopen : sr.status = SRStatus.open_)
    (hw : s.getUser wid = some w)
    (hfw : w.is_field_worker = true)
    (happ : w.is_approved = true)
    (hwid : wid ≠ 0)
    (hnone : s.tasks.find? (fun t => t.service_request == sr.id && t.assigned_to == some wid) = none) :
    ∃ s1 s2, assign s u rid (some (some wid)) = Except.ok s1 ∧
      assign s1 u rid (some (some wid)) = Except.ok s2 ∧
      s2.tasks = s1.tasks ∧
      (s2.tasks.filter (fun t => t.service_request == sr.id && t.assigned_to == some wid &&
         !(t.status == TaskStatus.completed))).length = 1 := by
  have hfind0 : s.requests.find? (fun r => r.id == rid) = some sr :=
    sr_get_object_admin_find hadmin hsr
  have hfirst : assign s u rid (some (some wid)) = Except.ok (assign_state_open s sr wid) := by
    rw [assign_ok_eq s u rid wid sr w hadmin hsr hw hfw happ hwid, if_pos hopen]
  have htasks1 : (assign_state_open s sr wid).tasks =
      s.tasks ++ [{ id := s.next_task_id, service_request := sr.id, assigned_to := some wid, status := TaskStatus.assigned, notes := "", proof_upload := none }] := by
    show (assign_state_1 s sr wid).tasks = _
    unfold assign_state_1
    exact get_or_create_task_new hnone
  have hfind2 : (assign_state_open s sr wid).requests.find? (fun r => r.id == rid) =
      some { sr with assigned_field_worker := some wid, status := SRStatus.in_progress } := by
    rw [assign_state_open_requests]
    exact find?_update_sr (find?_update_sr hfind0 rfl) rfl
  have hsr2 : sr_get_object (assign_state_open s sr wid) u rid =
      Except.ok { sr with assigned_field_worker := some wid, status := SRStatus.in_progress } := by
    unfold sr_get_object sr_get_queryset
    simp only [hadmin, if_true, hfind2]
    rw [if_pos (by simp [IsOwnerOrAdmin, hadmin])]
  have hw2 : (assign_state_open s sr wid).getUser wid = some w := by
    unfold State.getUser
    rw [assign_state_open_users]
    exact hw
  have hsome1 : ((assign_state_open s sr wid).tasks.find?
      (fun t => t.service_request == ({ sr with assigned_field_worker := some wid, status := SRStatus.in_progress } : ServiceRequest).id && t.assigned_to == some wid)).isSome = true := by
    rw [htasks1, List.find?_isSome]
    refine ⟨{ id := s.next_task_id, service_request := sr.id, assigned_to := some wid, status := TaskStatus.assigned, notes := "", proof_upload := none }, List.mem_append_right _ (List.mem_singleton_self _), ?_⟩
    simp
  obtain ⟨s2, hsecond, htasks2⟩ := assign_existing_pair_tasks (assign_state_open s sr wid) u rid wid
    { sr with assigned_field_worker := some wid, status := SRStatus.in_progress } w
    hadmin hsr2 hw2 hfw happ hwid hsome1
  refine ⟨assign_state_open s sr wid, s2, hfirst, hsecond, by rw [htasks2], ?_⟩
  rw [htasks2, htasks1, List.filter_append]
  have hfilter0 : s.tasks.filter (fun t => t.service_request == sr.id && t.assigned_to == some wid &&
      !(t.status == TaskStatus.completed)) = [] := by
    rw [List.filter_eq_nil_iff]
    intro t ht hPF
    have hp := List.find?_eq_none.mp hnone t ht
    exact hp ((Bool.and_eq_true _ _).mp hPF).1
  rw [hfilter0]
  simp

/-- C6 witness: assigning `worker2` to the open `request10` twice in the
task-free base store leaves exactly one non-completed task for the pair. -/
theorem C6_witness :
    ∃ s1 s2, assign baseStateNoTasks admin9 10 (some (some 2)) = Except.ok s1 ∧
      assign s1 admin9 10 (some (some 2)) = Except.ok s2 ∧
      s2.tasks = s1.tasks ∧
      (s2.tasks.filter (fun t => t.service_request == request10.id && t.assigned_to == some 2 &&
         !(t.status == TaskStatus.completed))).length = 1 :=
  C6_assignment_idempotent baseStateNoTasks admin9 10 2 request10 worker2 rfl rfl rfl rfl rfl rfl (by decide) rfl

/-! ## C7: rating invariant and the rate gate -/

/-- The spec invariant on a request table: a request that is not
completed carries no rating. -/
def RatingInvL (l : List ServiceRequest) : Prop :=
  ∀ r ∈ l, r.status ≠ SRStatus.completed → r.rating = none

/-- The spec invariant on a store. -/
def RatingInv (s : State) : Prop :=
  RatingInvL s.requests

/-- One successful caller-visible mutating operation of the embedded
API. -/
inductive Step : State → State → Prop
| assign_step (s : State) (u : User) (rid : Nat) (afw : Option (Option Nat)) (s' : State) :
    assign s u rid afw = Except.ok s' → Step s s'
| rate_step (s : State) (u : User) (rid v : Nat) (s' : State) :
    rate s u rid v = Except.ok s' → Step s s'
| set_status_step (s : State) (u : User) (tid : Nat) (v : TaskStatus) (s' : State) :
    set_status s u tid v = Except.ok s' → Step s s'
| upload_proof_step (s : State) (u : User) (tid : Nat) (pf nts : Option String) (s' : State) :
    upload_proof s u tid pf nts = Except.ok s' → Step s s'
| sr_create_step (s : State) (u : User) (nid : Nat) (d l : String) (urg : Urgency) (s' : State) :
    sr_create s u nid d l urg = Except.ok s' → Step s s'
| sr_update_step (s : State) (u : User) (rid : Nat) (d l : String) (urg : Urgency) (s' : State) :
    sr_update s u rid d l urg = Except.ok s' → Step s s'
| sr_destroy_step (s : State) (u : User) (rid : Nat) (s' : State) :
    sr_destroy s u rid = Except.ok s' → Step s s'
| task_destroy_step (s : State) (u : User) (tid : Nat) (s' : State) :
    task_destroy s u tid = Except.ok s' → Step s s'

/-- Updating a row that itself satisfies the invariant preserves it. -/
theorem RatingInvL_update {l : List ServiceRequest} {r' : ServiceRequest}
    (hinv : RatingInvL l) (hr' : r'.status ≠ SRStatus.completed → r'.rating = none) :
    RatingInvL (update_sr l r') := by
  intro x hx
  rcases mem_update_sr_cases hx with h | h
  · subst h
    exact hr'
  · exact hinv x h

/-- The completion sync preserves the invariant. -/
theorem RatingInv_cascade {s : State} {sr_id : Nat} (hinv : RatingInv s) :
    RatingInv (cascade_sr_completion s sr_id) := by
  unfold cascade_sr_completion
  split
  · split
    · intro x hx
      rcases mem_update_sr_cases hx with h | h
      · subst h
        intro hne
        exact absurd rfl hne
      · exact hinv x h
    · exact hinv
  · exact hinv

/-- `assign` preserves the invariant. -/
theorem assign_preserves_RatingInv {s : State} {u : User} {rid : Nat} {afw : Option (Option Nat)} {s' : State}
    (hinv : RatingInv s) (h : assign s u rid afw = Except.ok s') : RatingInv s' := by
  simp only [assign] at h
  split at h
  · exact absurd h (by simp)
  · split at h
    · exact absurd h (by simp)
    · rename_i sr hsr0
      have hsrmem : sr ∈ s.requests := (sr_get_object_ok hsr0).1
      split at h
      · exact absurd h (by simp)
      · split at h
        · -- a validated worker id
          split at h
          · -- id 0: Python-falsy, unassign branch
            injection h with h
            subst h
            exact RatingInvL_update hinv (fun hne => hinv sr hsrmem hne)
          · split at h
            · -- open request advanced to in_progress
              rename_i wid _ _ hst
              injection h with h
              subst h
              intro x hx
              rcases mem_update_sr_cases hx with hxe | hx2
              · subst hxe
                intro _
                refine hinv sr hsrmem ?_
                rw [show sr.status = SRStatus.open_ from hst]
                simp
              · rw [get_or_create_task_requests] at hx2
                rcases mem_update_sr_cases hx2 with hxe | hxs
                · subst hxe
                  exact fun hne => hinv sr hsrmem hne
                · exact hinv x hxs
            · -- non-open request: only the foreign key changes
              injection h with h
              subst h
              intro x hx
              rw [get_or_create_task_requests] at hx
              rcases mem_update_sr_cases hx with hxe | hxs
              · subst hxe
                exact fun hne => hinv sr hsrmem hne
              · exact hinv x hxs
        · -- null worker: unassign branch
          injection h with h
          subst h
          exact RatingInvL_update hinv (fun hne => hinv sr hsrmem hne)

/-- `rate` preserves the invariant. -/
theorem rate_preserves_RatingInv {s : State} {u : User} {rid v : Nat} {s' : State}
    (hinv : RatingInv s) (h : rate s u rid v = Except.ok s') : RatingInv s' := by
  simp only [rate] at h
  split at h
  · exact absurd h (by simp)
  · rename_i sr hsr0
    split at h
    · exact absurd h (by simp)
    · split at h
      · exact absurd h (by simp)
      · rename_i hncomp
        split at h
        · exact absurd h (by simp)
        · injection h with h
          subst h
          intro x hx
          rcases mem_update_sr_cases hx with hxe | hxs
          · subst hxe
            intro hne
            exact absurd (not_not.mp hncomp) hne
          · exact hinv x hxs

/-- `set_status` preserves the invariant. -/
theorem set_status_preserves_RatingInv {s : State} {u : User} {tid : Nat} {v : TaskStatus} {s' : State}
    (hinv : RatingInv s) (h : set_status s u tid v = Except.ok s') : RatingInv s' := by
  simp only [set_status] at h
  split at h
  · exact absurd h (by simp)
  · split at h
    · exact absurd h (by simp)
    · split at h
      · exact absurd h (by simp)
      · split at h
        · exact absurd h (by simp)
        · split at h
          · injection h with h
            subst h
            exact RatingInv_cascade hinv
          · injection h with h
            subst h
            exact hinv

/-- `upload_proof` preserves the invariant. -/
theorem upload_proof_preserves_RatingInv {s : State} {u : User} {tid : Nat} {pf nts : Option String} {s' : State}
    (hinv : RatingInv s) (h : upload_proof s u tid pf nts = Except.ok s') : RatingInv s' := by
  simp only [upload_proof] at h
  split at h
  · exact absurd h (by simp)
  · split at h
    · exact absurd h (by simp)
    · split at h
      · injection h with h
        subst h
        exact RatingInv_cascade hinv
      · injection h with h
        subst h
        exact hinv

/-- `sr_create` preserves the invariant: the new row has no rating. -/
theorem sr_create_preserves_RatingInv {s : State} {u : User} {nid : Nat} {d l : String} {urg : Urgency} {s' : State}
    (hinv : RatingInv s) (h : sr_create s u nid d l urg = Except.ok s') : RatingInv s' := by
  simp only [sr_create] at h
  split at h
  · exact absurd h (by simp)
  · injection h with h
    subst h
    intro x hx
    rcases List.mem_append.mp hx with hxs | hxn
    · exact hinv x hxs
    · rw [List.mem_singleton.mp hxn]
      intro _
      rfl

/-- `sr_update` preserves the invariant: status and rating are kept. -/
theorem sr_update_preserves_RatingInv {s : State} {u : User} {rid : Nat} {d l : String} {urg : Urgency} {s' : State}
    (hinv : RatingInv s) (h : sr_update s u rid d l urg = Except.ok s') : RatingInv s' := by
  simp only [sr_update] at h
  split at h
  · exact absurd h (by simp)
  · rename_i sr hsr0
    have hsrmem : sr ∈ s.requests := (sr_get_object_ok hsr0).1
    injection h with h
    subst h
    exact RatingInvL_update hinv (fun hne => hinv sr hsrmem hne)

/-- `sr_destroy` preserves the invariant: the table shrinks. -/
theorem sr_destroy_preserves_RatingInv {s : State} {u : User} {rid : Nat} {s' : State}
    (hinv : RatingInv s) (h : sr_destroy s u rid = Except.ok s') : RatingInv s' := by
  simp only [sr_destroy] at h
  split at h
  · exact absurd h (by simp)
  · injection h with h
    subst h
    intro x hx
    exact hinv x (List.mem_of_mem_filter hx)

/-- `task_destroy` preserves the invariant: requests are untouched. -/
theorem task_destroy_preserves_RatingInv {s : State} {u : User} {tid : Nat} {s' : State}
    (hinv : RatingInv s) (h : task_destroy s u tid = Except.ok s') : RatingInv s' := by
  simp only [task_destroy] at h
  split at h
  · exact absurd h (by simp)
  · injection h with h
    subst h
    exact hinv

/-- C7 counterexample: an admin calling rate on an open request is
rejected with PermissionDenied "Not allowed", not with the
ValidationError the claim promises for every rate call on a
non-completed request. -/
theorem C7_counterexample :
    rate baseState admin9 10 4 = Except.error (ApiError.PermissionDenied "Not allowed") := by
  rfl

/-- C7 (amended): every reachable mutation preserves the invariant that a
non-completed request carries no rating; every rate call on a
non-completed request fails (the owning customer gets the ValidationError
"Rating allowed only when status is completed.", anyone else
PermissionDenied or NotFound); on a completed request the owning customer
succeeds exactly for values 1..5, which set the rating. -/
theorem C7_rating_gated_on_completion :
    (∀ s s' : State, RatingInv s → Step s s' → RatingInv s') ∧
    (∀ (s : State) (u : User) (rid v : Nat),
       (∀ r ∈ s.requests, r.id = rid → r.status ≠ SRStatus.completed) →
       ∃ e, rate s u rid v = Except.error e) ∧
    (∀ (s : State) (u : User) (rid v : Nat) (sr : ServiceRequest),
       sr_get_object s u rid = Except.ok sr → u.is_customer = true → sr.customer_id = u.id →
       sr.status ≠ SRStatus.completed →
       rate s u rid v =
         Except.error (ApiError.ValidationError "Rating allowed only when status is completed.")) ∧
    (∀ (s : State) (u : User) (rid v : Nat) (sr : ServiceRequest),
       sr_get_object s u rid = Except.ok sr → u.is_customer = true → sr.customer_id = u.id →
       sr.status = SRStatus.completed →
       (1 ≤ v ∧ v ≤ 5 →
          rate s u rid v =
            Except.ok { s with requests := update_sr s.requests { sr with rating := some v } }) ∧
       (¬(1 ≤ v ∧ v ≤ 5) →
          rate s u rid v =
            Except.error (ApiError.ValidationError "Rating must be between 1 and 5."))) := by
  refine ⟨?_, ?_, ?_, ?_⟩
  · intro s s' hinv hstep
    cases hstep with
    | assign_step _ _ _ _ h => exact assign_preserves_RatingInv hinv h
    | rate_step _ _ _ _ h => exact rate_preserves_RatingInv hinv h
    | set_status_step _ _ _ _ h => exact set_status_preserves_RatingInv hinv h
    | upload_proof_step _ _ _ _ _ h => exact upload_proof_preserves_RatingInv hinv h
    | sr_create_step _ _ _ _ _ _ h => exact sr_create_preserves_RatingInv hinv h
    | sr_update_step _ _ _ _ _ _ h => exact sr_update_preserves_RatingInv hinv h
    | sr_destroy_step _ _ _ h => exact sr_destroy_preserves_RatingInv hinv h
    | task_destroy_step _ _ _ h => exact task_destroy_preserves_RatingInv hinv h
  · intro s u rid v hall
    cases hget : sr_get_object s u rid with
    | error e => exact ⟨e, by simp [rate, hget]⟩
    | ok sr =>
      obtain ⟨hmem, hid, _⟩ := sr_get_object_ok hget
      have hne : sr.status ≠ SRStatus.completed := hall sr hmem hid
      by_cases hown : u.is_customer = true ∧ sr.customer_id = u.id
      · exact ⟨ApiError.ValidationError "Rating allowed only when status is completed.",
          by simp [rate, hget, hown, hne]⟩
      · exact ⟨ApiError.PermissionDenied "Not allowed", by simp [rate, hget, hown]⟩
  · intro s u rid v sr hget hcust hownid hne
    simp [rate, hget, hcust, hownid, hne]
  · intro s u rid v sr hget hcust hownid hcomp
    constructor
    · intro hv
      simp [rate, validate_rating, hget, hcust, hownid, hcomp, hv]
    · intro hnv
      simp [rate, validate_rating, hget, hcust, hownid, hcomp, hnv]

/-- C7 witness: the owning customer rating their open request gets the
completion-gate error. -/
theorem C7_witness :
    rate baseState customer1 10 3 =
      Except.error (ApiError.ValidationError "Rating allowed only when status is completed.") :=
  C7_rating_gated_on_completion.2.2.1 baseState customer1 10 3 request10 rfl rfl rfl (by decide)

/-! ## C8 -/

/-- C8: a field worker sees every request in the list queryset, but
`retrieve` (get_object) applies `IsOwnerOrAdmin`, which has no safe-method
branch, so retrieving another customer's request is denied — contradicting
the view's own queryset comment and swagger description that workers can
read all requests. -/
theorem C8_field_worker_retrieve_denied :
    sr_list baseState worker2 = [request10] ∧
    IsOwnerOrAdmin worker2 request10 = false ∧
    sr_retrieve baseState worker2 10 =
      Except.error (ApiError.PermissionDenied "You do not have permission to perform this action.") := by
  refine ⟨rfl, rfl, rfl⟩

/-! ## C9 -/

/-- C9: `IsAdminOrAssigneeOrReadOnly` grants the assignee every non-safe
method, DELETE included, so the assignee's destroy call succeeds and
removes the task — contradicting the view's own swagger description
"Only admins can delete tasks." -/
theorem C9_assignee_can_delete_task :
    IsAdminOrAssigneeOrReadOnly worker2 false task5 = true ∧
    worker2.is_admin = false ∧
    task_destroy baseState worker2 5 = Except.ok { baseState with tasks := [] } := by
  refine ⟨rfl, rfl, rfl⟩

end FieldOps
